import Mathlib

/-!
Verification of the simulation-loop orchestration of `server-physic`
(`src/main.rs`), a fixed-timestep 2D rigid-body demo built on the external
`nphysics2d` engine.  The embedding models the parts of the engine surface the
program uses (body/collider creation with slab-style increasing identifiers,
per-step integration as an opaque state-advance function, pose/velocity
accessors) and the program's own orchestration: scene construction
(`create_ground`, `create_balls`), the physics worker loop (`physics`), the two
mpsc channels, and the consuming loop in `main`.

Numeric `f32` fields (positions, velocities, shape extents) are carried as
exact rationals; no claim depends on floating-point rounding, only on which
values are requested (e.g. positivity of half-extents) and on structural
data flow.  The engine's `World::step` integration itself is external to the
repository and is modelled as an arbitrary per-body state transformer
`advance`, which the orchestration layer treats as opaque.
-/

set_option autoImplicit false

namespace ServerPhysic

/-- 2D isometry `Isometry2<f32>`: translation plus rotation angle. -/
structure Isometry2 where
  x : Rat
  y : Rat
  angle : Rat
  deriving DecidableEq, Repr

/-- `Velocity2<f32>`: linear and angular velocity. -/
structure Velocity2 where
  linx : Rat
  liny : Rat
  angular : Rat
  deriving DecidableEq, Repr

/-- Live state of one rigid body inside the engine world
(the fields the program reads: `position()`, `velocity()`). -/
structure RigidBodyState where
  position : Isometry2
  velocity : Velocity2
  deriving DecidableEq, Repr

/-- `Cuboid::new(half_extents)` shape request, as recorded by `add_collider`. -/
structure Cuboid where
  hx : Rat
  hy : Rat
  deriving DecidableEq, Repr

/-- `BodyHandle`: either the distinguished ground handle
(`BodyHandle::ground()`) or a slab index of a rigid body. -/
inductive BodyHandle where
  | ground : BodyHandle
  | body (idx : Nat) : BodyHandle
  deriving DecidableEq, Repr

/-- Association-list lookup keyed by `Nat` (slab identifiers never repeat in
this program, so list order is irrelevant to lookups). -/
def assocFind {β : Type} (u : Nat) : List (Nat × β) → Option β
  | [] => none
  | (k, v) :: rest => if k = u then some v else assocFind u rest

/-- The engine `World<f32>`, restricted to the structure the program uses:
slab counters for fresh handles, rigid bodies keyed by body index, colliders
keyed by collider uid and pointing at their parent body, the list of shape
requests made so far, and the number of `step()` calls performed. -/
structure World where
  nextBody : Nat
  nextCollider : Nat
  bodies : List (Nat × RigidBodyState)
  colliders : List (Nat × BodyHandle)
  shapes : List Cuboid
  ticks : Nat
  deriving DecidableEq, Repr

namespace World

/-- `World::new()`. -/
def new : World :=
  { nextBody := 0, nextCollider := 0, bodies := [], colliders := [],
    shapes := [], ticks := 0 }

/-- `world.add_rigid_body(pos, inertia, com)`: allocates the next body slab
index; the new body starts at the given pose with zero velocity.  The inertia
and center-of-mass arguments only parameterize the external integrator and are
not part of the orchestration state. -/
def add_rigid_body (w : World) (pos : Isometry2) : World × Nat :=
  let st : RigidBodyState :=
    { position := pos, velocity := { linx := 0, liny := 0, angular := 0 } }
  ({ w with
      nextBody := w.nextBody + 1
      bodies := w.bodies ++ [(w.nextBody, st)] },
   w.nextBody)

/-- `world.add_collider(margin, shape, parent, pose, material)`: allocates the
next collider uid (`ColliderHandle::uid()`), attached to `parent`. -/
def add_collider (w : World) (shape : Cuboid) (parent : BodyHandle) : World × Nat :=
  ({ w with
      nextCollider := w.nextCollider + 1
      colliders := w.colliders ++ [(w.nextCollider, parent)]
      shapes := w.shapes ++ [shape] },
   w.nextCollider)

/-- `world.collider_body_handle(handle)`: parent body of a collider, `None`
for an unknown uid. -/
def collider_body_handle (w : World) (uid : Nat) : Option BodyHandle :=
  assocFind uid w.colliders

/-- `world.rigid_body(handle)` / `rigid_body_mut`: the rigid body behind a
handle; the ground handle has no rigid body. -/
def rigid_body (w : World) : BodyHandle → Option RigidBodyState
  | .ground => none
  | .body n => assocFind n w.bodies

/-- `body.set_linear_velocity(v)` applied through a body handle. -/
def set_linear_velocity (w : World) (h : BodyHandle) (vx vy : Rat) : World :=
  match h with
  | .ground => w
  | .body n =>
      { w with bodies := w.bodies.map (fun p =>
          if p.1 = n then
            (p.1, { p.2 with velocity := { p.2.velocity with linx := vx, liny := vy } })
          else p) }

/-- `world.step()`: the external engine advances every live rigid body by one
fixed timestep.  The integration itself (gravity, contacts, solver) is outside
this repository; it is modelled by an arbitrary per-body transformer
`advance`.  Stepping never creates or removes bodies or colliders. -/
def step (advance : RigidBodyState → RigidBodyState) (w : World) : World :=
  { w with
      bodies := w.bodies.map (fun p => (p.1, advance p.2))
      ticks := w.ticks + 1 }

end World

/-! ## Scene construction (`create_ground`, `create_balls`) -/

/-- `COLLIDER_MARGIN`. -/
def COLLIDER_MARGIN : Rat := 1 / 100

/-- Ground half-extent request: `ground_radius - COLLIDER_MARGIN` with
`ground_radius = 50.0`. -/
def groundShape : Cuboid :=
  { hx := 50 - COLLIDER_MARGIN, hy := 50 - COLLIDER_MARGIN }

/-- The four ground poses of `create_ground`. -/
def groundPositions : List Isometry2 :=
  [ { x := 0, y := -50, angle := 0 },
    { x := 0, y := 100, angle := 0 },
    { x := 75, y := 25, angle := 0 },
    { x := -75, y := 25, angle := 0 } ]

/-- `create_ground`: adds one static collider per configured position, all
attached to `BodyHandle::ground()`. -/
def create_ground (w : World) : World :=
  groundPositions.foldl (fun acc _pos => (acc.add_collider groundShape .ground).1) w

/-- Ball half-extent request: `rad - COLLIDER_MARGIN` with `rad = 1.5`. -/
def ballShape : Cuboid :=
  { hx := 3 / 2 - COLLIDER_MARGIN, hy := 3 / 2 - COLLIDER_MARGIN }

/-- Initial pose of ball `i`: `x = (i - 1.0) * 4.0`, `y = 3.0`. -/
def ballPos (i : Nat) : Isometry2 :=
  { x := ((i : Int) - 1) * 4, y := 3, angle := 0 }

/-- The body of the `for i in 0..num` loop of `create_balls`: each iteration
adds one rigid body at `ballPos i` and one collider attached to it, pushing the
collider handle.  `i` is the current loop index, the second argument the
remaining iteration count. -/
def createBallsAux (w : World) : Nat → Nat → World × List Nat
  | _, 0 => (w, [])
  | i, Nat.succ k =>
      let (w₁, bh) := w.add_rigid_body (ballPos i)
      let (w₂, cu) := w₁.add_collider ballShape (.body bh)
      let (w₃, rest) := createBallsAux w₂ (i + 1) k
      (w₃, cu :: rest)

/-- `create_balls(world, num)`: returns the collider handles of the created
balls in creation order. -/
def create_balls (w : World) (num : Nat) : World × List Nat :=
  createBallsAux w 0 num

/-- `[base, base+1, ..., base+k-1]`: the collider uids handed out by `k`
consecutive `add_collider` calls starting from slab counter `base`. -/
def uidRange (base : Nat) : Nat → List Nat
  | 0 => []
  | Nat.succ k => base :: uidRange (base + 1) k

/-- Bodies appended by `createBallsAux w i k` (body indices from `w.nextBody`). -/
def newBodies (base : Nat) (i : Nat) : Nat → List (Nat × RigidBodyState)
  | 0 => []
  | Nat.succ k =>
      (base, { position := ballPos i,
               velocity := { linx := 0, liny := 0, angular := 0 } })
        :: newBodies (base + 1) (i + 1) k

/-- Colliders appended by `createBallsAux`: uid `cbase+j` points at body
`bbase+j`. -/
def newColliders (cbase bbase : Nat) : Nat → List (Nat × BodyHandle)
  | 0 => []
  | Nat.succ k => (cbase, BodyHandle.body bbase) :: newColliders (cbase + 1) (bbase + 1) k

theorem createBallsAux_spec (k : Nat) : ∀ (i : Nat) (w : World),
    createBallsAux w i k =
      ({ w with
          nextBody := w.nextBody + k
          nextCollider := w.nextCollider + k
          bodies := w.bodies ++ newBodies w.nextBody i k
          colliders := w.colliders ++ newColliders w.nextCollider w.nextBody k
          shapes := w.shapes ++ List.replicate k ballShape },
       uidRange w.nextCollider k) := by
  induction k with
  | zero => intro i w; simp [createBallsAux, uidRange, newBodies, newColliders]
  | succ k ih =>
      intro i w
      simp only [createBallsAux, World.add_rigid_body, World.add_collider]
      rw [ih]
      simp only [Prod.mk.injEq, uidRange, newBodies, newColliders]
      refine ⟨?_, trivial⟩
      cases w
      simp only [World.mk.injEq]
      refine ⟨by omega, by omega, ?_, ?_, ?_, trivial⟩ <;>
        simp [List.append_assoc, List.replicate_succ]

/-! ## The physics worker (`physics`) -/

/-- The `Ball` message struct: `{ id: usize, position, velocity }` with
`id = handler.uid()`. -/
structure BallMsg where
  id : Nat
  position : Isometry2
  velocity : Velocity2
  deriving DecidableEq, Repr

/-- One frame payload sent on the balls channel: the `Vec<Ball>` built by
`sync_balls.collect()`. -/
def Frame : Type := List BallMsg

instance : DecidableEq Frame := inferInstanceAs (DecidableEq (List BallMsg))

/-- The snapshot loop body: for each collider handle, unwrap
`collider_body_handle` and `rigid_body_mut` and copy out id, position and
velocity.  The two `unwrap()`s are modelled by `Option` bind: `none` is a
worker panic. -/
def syncBalls (w : World) : List Nat → Option Frame
  | [] => some []
  | h :: t =>
      (w.collider_body_handle h).bind fun bh =>
        (w.rigid_body bh).bind fun rb =>
          (syncBalls w t).map fun rest =>
            { id := h, position := rb.position, velocity := rb.velocity } :: rest

/-- State of the two mpsc channels as seen from the worker: whether each
receiver is still connected, and the values delivered so far.  `send` on a
disconnected channel returns `Err` and delivers nothing; the worker discards
the `Result` either way. -/
structure Channels where
  ballsConn : Bool
  msgsConn : Bool
  ballsSent : List Frame
  msgsSent : List String

/-- `txBalls.send(frame)` with the `Result` discarded. -/
def Channels.sendBalls (ch : Channels) (f : Frame) : Channels :=
  if ch.ballsConn then { ch with ballsSent := ch.ballsSent ++ [f] } else ch

/-- `txMessages.send(msg)` with the `Result` discarded. -/
def Channels.sendMsg (ch : Channels) (m : String) : Channels :=
  if ch.msgsConn then { ch with msgsSent := ch.msgsSent ++ [m] } else ch

/-- Both receivers alive: the situation while `main` is in its receive loop. -/
def Channels.connected : Channels :=
  { ballsConn := true, msgsConn := true, ballsSent := [], msgsSent := [] }

/-- Result of running the worker loop: final world, the frames successfully
built (in tick order), final channel state, and whether a snapshot `unwrap()`
panicked (which aborts the loop with no further sends). -/
structure RunResult where
  world : World
  frames : List Frame
  channels : Channels
  panicked : Bool

/-- The `for _ in 0..300` loop of `physics`, one iteration per remaining
count: sleep (no state), `world.step()`, build the snapshot, send it on the
balls channel, send `"balls"` on the message channel. -/
def runTicks (advance : RigidBodyState → RigidBodyState) (hs : List Nat) :
    Nat → World → Channels → RunResult
  | 0, w, ch => { world := w, frames := [], channels := ch, panicked := false }
  | Nat.succ n, w, ch =>
      let w' := World.step advance w
      match syncBalls w' hs with
      | none => { world := w', frames := [], channels := ch, panicked := true }
      | some f =>
          let ch₁ := (ch.sendBalls f).sendMsg "balls"
          let r := runTicks advance hs n w' ch₁
          { r with frames := f :: r.frames }

/-- Worker setup, up to and including the initial-velocity kick: build the
world, create ground and balls, collect the tracked uid set, take the last
collider handle (`last().unwrap()`), resolve it to its rigid body
(`collider_body_handle(..).unwrap()`, `rigid_body_mut(..).unwrap()`) and set
its linear velocity to `(30, 30)`.  `none` models a setup panic.  The tracked
set `balls` is the list of collider uids (a `HashSet` in the source; the uids
are distinct, so the list is an exact model of the set). -/
def physicsSetup (num : Nat) : Option (World × List Nat) :=
  let w := create_ground World.new
  let p := create_balls w num
  (p.2.getLast?).bind fun lastH =>
    (p.1.collider_body_handle lastH).bind fun bodyHandler =>
      (p.1.rigid_body bodyHandler).map fun _ =>
        (p.1.set_linear_velocity bodyHandler 30 30, p.2)

/-- The tick budget hard-coded in `for _ in 0..300`. -/
def TICKS : Nat := 300

/-- The whole worker `physics`: setup with `num = 2`, the 300-tick loop, then
the terminal `"end"` send.  A setup panic (`none`) sends nothing; a mid-loop
snapshot panic aborts before the `"end"` send. -/
def physicsRun (advance : RigidBodyState → RigidBodyState) (ch : Channels) : RunResult :=
  match physicsSetup 2 with
  | none => { world := World.new, frames := [], channels := ch, panicked := true }
  | some (w, handlers) =>
      let r := runTicks advance handlers TICKS w ch
      if r.panicked then r
      else { r with channels := r.channels.sendMsg "end" }

/-- The worker's frames in tick order, for connected channels. -/
def physicsFrames (advance : RigidBodyState → RigidBodyState) : List Frame :=
  (physicsRun advance Channels.connected).frames

/-- World after setup (before the first tick), for the actual `num = 2` run. -/
def initWorld : World :=
  ((physicsSetup 2).map Prod.fst).getD World.new

/-- The tracked ball uid list (the worker's `balls` set / `balls_handler`). -/
def trackedUids : List Nat :=
  ((physicsSetup 2).map Prod.snd).getD []

/-- Engine world after `k` calls to `world.step()` in the loop. -/
def worldAfter (advance : RigidBodyState → RigidBodyState) (k : Nat) : World :=
  (World.step advance)^[k] initWorld

/-- The snapshot the worker publishes for tick `t` (0-based): the body states
after `t + 1` engine steps. -/
def tickFrame (advance : RigidBodyState → RigidBodyState) (t : Nat) : Frame :=
  (syncBalls (worldAfter advance (t + 1)) trackedUids).getD []

/-! ## Characterization of the lookup structure -/

theorem assocFind_append_none {β : Type} (u : Nat) :
    ∀ l₁ l₂ : List (Nat × β), assocFind u l₁ = none →
      assocFind u (l₁ ++ l₂) = assocFind u l₂ := by
  intro l₁
  induction l₁ with
  | nil => intro l₂ _; rfl
  | cons p rest ih =>
      intro l₂ h
      simp only [assocFind, List.cons_append] at h ⊢
      split at h
      · exact absurd h (by simp)
      · rw [if_neg (by assumption)]; exact ih l₂ h

theorem assocFind_map {β : Type} (f : Nat → β → β) (u : Nat) :
    ∀ l : List (Nat × β),
      assocFind u (l.map (fun p => (p.1, f p.1 p.2))) = (assocFind u l).map (f u) := by
  intro l
  induction l with
  | nil => rfl
  | cons p rest ih =>
      simp only [List.map_cons, assocFind]
      by_cases h : p.1 = u
      · subst h; simp
      · rw [if_neg h, if_neg h, ih]

/-- The four static colliders of `create_ground`, attached to the ground
handle, with uids 0-3. -/
def groundColliders : List (Nat × BodyHandle) :=
  [(0, .ground), (1, .ground), (2, .ground), (3, .ground)]

theorem create_ground_new :
    create_ground World.new =
      { nextBody := 0, nextCollider := 4, bodies := [],
        colliders := groundColliders,
        shapes := List.replicate 4 groundShape, ticks := 0 } := by
  rfl

theorem assocFind_groundColliders (i : Nat) :
    assocFind (4 + i) groundColliders = none := by
  simp only [groundColliders, assocFind]
  rw [if_neg (by omega), if_neg (by omega), if_neg (by omega), if_neg (by omega)]

theorem assocFind_newColliders :
    ∀ (k cb bb i : Nat), i < k →
      assocFind (cb + i) (newColliders cb bb k) = some (.body (bb + i)) := by
  intro k
  induction k with
  | zero => intro _ _ _ h; omega
  | succ k ih =>
      intro cb bb i h
      match i with
      | 0 => simp [newColliders, assocFind]
      | Nat.succ j =>
          simp only [newColliders, assocFind]
          rw [if_neg (by omega)]
          have := ih (cb + 1) (bb + 1) j (by omega)
          rw [show cb + 1 + j = cb + (j + 1) by omega, show bb + 1 + j = bb + (j + 1) by omega] at this
          exact this

/-- The initial state of ball `i` before the velocity kick. -/
def ballState (i : Nat) : RigidBodyState :=
  { position := ballPos i, velocity := { linx := 0, liny := 0, angular := 0 } }

theorem assocFind_newBodies :
    ∀ (k b ix i : Nat), i < k →
      assocFind (b + i) (newBodies b ix k) = some (ballState (ix + i)) := by
  intro k
  induction k with
  | zero => intro _ _ _ h; omega
  | succ k ih =>
      intro b ix i h
      match i with
      | 0 => simp [newBodies, assocFind, ballState]
      | Nat.succ j =>
          simp only [newBodies, assocFind]
          rw [if_neg (by omega)]
          have := ih (b + 1) (ix + 1) j (by omega)
          rw [show b + 1 + j = b + (j + 1) by omega, show ix + 1 + j = ix + (j + 1) by omega] at this
          exact this

theorem uidRange_getLast :
    ∀ (m b : Nat), (uidRange b (m + 1)).getLast? = some (b + m) := by
  intro m
  induction m with
  | zero => intro b; rfl
  | succ m ih =>
      intro b
      rw [show uidRange b (m + 1 + 1) = b :: (b + 1) :: uidRange (b + 2) m from rfl,
        List.getLast?_cons_cons,
        show (b + 1) :: uidRange (b + 2) m = uidRange (b + 1) (m + 1) from rfl,
        ih (b + 1)]
      congr 1
      omega

theorem mem_uidRange :
    ∀ (k b h : Nat), h ∈ uidRange b k ↔ b ≤ h ∧ h < b + k := by
  intro k
  induction k with
  | zero => intro b h; simp [uidRange]
  | succ k ih =>
      intro b h
      simp only [uidRange, List.mem_cons, ih (b + 1) h]
      omega

/-! ## Stepping and velocity updates preserve the registry structure -/

theorem colliders_set_linear_velocity (w : World) (h : BodyHandle) (vx vy : Rat) :
    (w.set_linear_velocity h vx vy).colliders = w.colliders := by
  cases h <;> rfl

theorem assocFind_isSome_map_keyed {β : Type} (F : Nat × β → Nat × β)
    (hF : ∀ p, (F p).1 = p.1) (u : Nat) :
    ∀ l : List (Nat × β), (assocFind u (l.map F)).isSome = (assocFind u l).isSome := by
  intro l
  induction l with
  | nil => rfl
  | cons p rest ih =>
      obtain ⟨k, v⟩ := p
      have h1 := hF (k, v)
      cases hq : F (k, v) with
      | mk k2 v2 =>
          rw [hq] at h1
          have h1' : k2 = k := h1
          simp only [List.map_cons, hq, assocFind]
          rw [h1']
          by_cases h : k = u
          · rw [if_pos h, if_pos h]; rfl
          · rw [if_neg h, if_neg h]; exact ih

theorem rigid_body_set_linear_velocity_isSome (w : World) (n : Nat) (vx vy : Rat)
    (h : BodyHandle) :
    ((w.set_linear_velocity (.body n) vx vy).rigid_body h).isSome =
      (w.rigid_body h).isSome := by
  cases h with
  | ground => rfl
  | body m =>
      exact assocFind_isSome_map_keyed _ (fun p => by dsimp only; split <;> rfl) m w.bodies

theorem colliders_step (advance : RigidBodyState → RigidBodyState) (w : World) :
    (World.step advance w).colliders = w.colliders := rfl

theorem rigid_body_step (advance : RigidBodyState → RigidBodyState) (w : World)
    (h : BodyHandle) :
    (World.step advance w).rigid_body h = (w.rigid_body h).map advance := by
  cases h with
  | ground => rfl
  | body n => exact assocFind_map (fun _ v => advance v) n w.bodies

theorem colliders_iterate (advance : RigidBodyState → RigidBodyState) (w : World) :
    ∀ k : Nat, ((World.step advance)^[k] w).colliders = w.colliders := by
  intro k
  induction k with
  | zero => rfl
  | succ k ih => rw [Function.iterate_succ_apply', colliders_step, ih]

theorem rigid_body_iterate_isSome (advance : RigidBodyState → RigidBodyState)
    (w : World) (h : BodyHandle) :
    ∀ k : Nat, (((World.step advance)^[k] w).rigid_body h).isSome =
      (w.rigid_body h).isSome := by
  intro k
  induction k with
  | zero => rfl
  | succ k ih =>
      rw [Function.iterate_succ_apply', rigid_body_step, Option.isSome_map', ih]

theorem ticks_iterate (advance : RigidBodyState → RigidBodyState) (w : World) :
    ∀ k : Nat, ((World.step advance)^[k] w).ticks = w.ticks + k := by
  intro k
  induction k with
  | zero => rfl
  | succ k ih => rw [Function.iterate_succ_apply']; show _ + 1 = _; rw [ih]; omega

/-! ## The setup world -/

/-- The world right after `create_ground` and `create_balls(num)`, before the
initial-velocity kick. -/
def preSetupWorld (num : Nat) : World :=
  { nextBody := num, nextCollider := 4 + num,
    bodies := newBodies 0 0 num,
    colliders := groundColliders ++ newColliders 4 0 num,
    shapes := List.replicate 4 groundShape ++ List.replicate num ballShape,
    ticks := 0 }

theorem create_balls_ground (num : Nat) :
    create_balls (create_ground World.new) num = (preSetupWorld num, uidRange 4 num) := by
  rw [show create_balls (create_ground World.new) num
      = createBallsAux (create_ground World.new) 0 num from rfl,
    create_ground_new, createBallsAux_spec]
  simp [preSetupWorld]

theorem collider_body_handle_preSetup (num i : Nat) (h : i < num) :
    (preSetupWorld num).collider_body_handle (4 + i) = some (.body i) := by
  show assocFind (4 + i) (groundColliders ++ newColliders 4 0 num) = _
  rw [assocFind_append_none _ _ _ (assocFind_groundColliders i),
    assocFind_newColliders num 4 0 i h]
  simp

theorem rigid_body_preSetup (num i : Nat) (h : i < num) :
    (preSetupWorld num).rigid_body (.body i) = some (ballState i) := by
  show assocFind i (newBodies 0 0 num) = _
  have := assocFind_newBodies num 0 0 i h
  simpa using this

/-- The fully set-up worker world: `preSetupWorld` with the `(30, 30)` linear
velocity applied to the last ball's body. -/
def setupWorld (num : Nat) : World :=
  (preSetupWorld num).set_linear_velocity (.body (num - 1)) 30 30

theorem physicsSetup_succ (m : Nat) :
    physicsSetup (m + 1) = some (setupWorld (m + 1), uidRange 4 (m + 1)) := by
  have h2 := collider_body_handle_preSetup (m + 1) m (by omega)
  have h3 := rigid_body_preSetup (m + 1) m (by omega)
  simp only [physicsSetup, create_balls_ground, uidRange_getLast m 4, h2, h3,
    Option.some_bind, Option.map_some, setupWorld]
  rfl

theorem collider_body_handle_iterate (advance : RigidBodyState → RigidBodyState)
    (w : World) (u k : Nat) :
    ((World.step advance)^[k] w).collider_body_handle u = w.collider_body_handle u := by
  show assocFind u ((World.step advance)^[k] w).colliders = _
  rw [colliders_iterate]
  rfl

theorem collider_body_handle_setup_iterate
    (advance : RigidBodyState → RigidBodyState) (num i k : Nat) (h : i < num) :
    ((World.step advance)^[k] (setupWorld num)).collider_body_handle (4 + i) =
      some (.body i) := by
  rw [collider_body_handle_iterate]
  show assocFind (4 + i) (setupWorld num).colliders = _
  rw [show (setupWorld num).colliders = (preSetupWorld num).colliders from
    colliders_set_linear_velocity _ _ _ _]
  exact collider_body_handle_preSetup num i h

theorem rigid_body_setup_iterate_isSome
    (advance : RigidBodyState → RigidBodyState) (num i k : Nat) (h : i < num) :
    (((World.step advance)^[k] (setupWorld num)).rigid_body (.body i)).isSome = true := by
  rw [rigid_body_iterate_isSome]
  show ((((preSetupWorld num)).set_linear_velocity (.body (num - 1)) 30 30).rigid_body
    (.body i)).isSome = true
  rw [rigid_body_set_linear_velocity_isSome, rigid_body_preSetup num i h]
  rfl

/-! ## Success and shape of the per-tick snapshot -/

theorem syncBalls_eq_some (w : World) :
    ∀ hs : List Nat,
      (∀ h ∈ hs, ((w.collider_body_handle h).bind w.rigid_body).isSome = true) →
      ∃ l, syncBalls w hs = some l ∧ l.map BallMsg.id = hs := by
  intro hs
  induction hs with
  | nil => intro _; exact ⟨[], rfl, rfl⟩
  | cons h t ih =>
      intro hyp
      have hh := hyp h (List.mem_cons_self h t)
      cases cbh : w.collider_body_handle h with
      | none => rw [cbh] at hh; exact absurd hh (by simp)
      | some bh =>
          cases hrb : w.rigid_body bh with
          | none => rw [cbh, Option.some_bind, hrb] at hh; exact absurd hh (by simp)
          | some rb =>
              obtain ⟨l, hl, hmap⟩ := ih (fun x hx => hyp x (List.mem_cons_of_mem h hx))
              refine ⟨{ id := h, position := rb.position, velocity := rb.velocity } :: l, ?_, ?_⟩
              · show (w.collider_body_handle h).bind _ = _
                rw [cbh, Option.some_bind, hrb, Option.some_bind, hl, Option.map_some']
              · simp [hmap]

theorem syncBalls_setup (advance : RigidBodyState → RigidBodyState) (num k : Nat) :
    ∃ l, syncBalls ((World.step advance)^[k] (setupWorld num)) (uidRange 4 num) = some l ∧
      l.map BallMsg.id = uidRange 4 num := by
  apply syncBalls_eq_some
  intro h hmem
  obtain ⟨hlo, hhi⟩ := (mem_uidRange num 4 h).1 hmem
  obtain ⟨i, rfl⟩ : ∃ i, h = 4 + i := ⟨h - 4, by omega⟩
  rw [collider_body_handle_setup_iterate advance num i k (by omega), Option.some_bind]
  exact rigid_body_setup_iterate_isSome advance num i k (by omega)

/-! ## Shape of the worker loop -/

/-- The frames built by `n` loop iterations starting from world `w`: the
snapshot after each successive engine step. -/
def framesFrom (advance : RigidBodyState → RigidBodyState) (hs : List Nat) :
    Nat → World → List Frame
  | 0, _ => []
  | Nat.succ n, w =>
      let w' := World.step advance w
      (syncBalls w' hs).getD [] :: framesFrom advance hs n w'

/-- Channel state after sending each frame followed by its `"balls"` tag. -/
def chanAfter (ch : Channels) : List Frame → Channels
  | [] => ch
  | f :: fs => chanAfter ((ch.sendBalls f).sendMsg "balls") fs

theorem runTicks_spec (advance : RigidBodyState → RigidBodyState) (hs : List Nat) :
    ∀ (n : Nat) (w : World) (ch : Channels),
      (∀ k : Nat, (syncBalls ((World.step advance)^[k + 1] w) hs).isSome = true) →
      runTicks advance hs n w ch =
        { world := (World.step advance)^[n] w,
          frames := framesFrom advance hs n w,
          channels := chanAfter ch (framesFrom advance hs n w),
          panicked := false } := by
  intro n
  induction n with
  | zero =>
      intro w ch _
      simp [runTicks, framesFrom, chanAfter]
  | succ n ih =>
      intro w ch hyp
      have h0 := hyp 0
      rw [show (0 : Nat) + 1 = 1 from rfl, Function.iterate_one] at h0
      cases hsync : syncBalls (World.step advance w) hs with
      | none => rw [hsync] at h0; exact absurd h0 (by simp)
      | some f =>
          show (match syncBalls (World.step advance w) hs with
            | none => _
            | some f => _) = _
          rw [hsync]
          show (let r := runTicks advance hs n (World.step advance w)
                  ((ch.sendBalls f).sendMsg "balls");
                { r with frames := f :: r.frames }) = _
          rw [ih (World.step advance w) ((ch.sendBalls f).sendMsg "balls")
            (fun k => by
              have := hyp (k + 1)
              rwa [Function.iterate_succ_apply (World.step advance) (k + 1) w] at this)]
          simp only [framesFrom, hsync, Option.getD_some, chanAfter]
          rw [← Function.iterate_succ_apply]

theorem framesFrom_length (advance : RigidBodyState → RigidBodyState) (hs : List Nat) :
    ∀ (n : Nat) (w : World), (framesFrom advance hs n w).length = n := by
  intro n
  induction n with
  | zero => intro w; rfl
  | succ n ih => intro w; show _ + 1 = n + 1; rw [ih]

theorem framesFrom_get (advance : RigidBodyState → RigidBodyState) (hs : List Nat) :
    ∀ (n : Nat) (w : World) (t : Nat), t < n →
      (framesFrom advance hs n w).get? t =
        some ((syncBalls ((World.step advance)^[t + 1] w) hs).getD []) := by
  intro n
  induction n with
  | zero => intro w t h; omega
  | succ n ih =>
      intro w t h
      match t with
      | 0 =>
          show some ((syncBalls (World.step advance w) hs).getD []) = _
          rw [Function.iterate_one]
      | Nat.succ t' =>
          show (framesFrom advance hs n (World.step advance w)).get? t' = _
          rw [ih (World.step advance w) t' (by omega),
            ← Function.iterate_succ_apply]

theorem chanAfter_connected :
    ∀ (fs : List Frame) (ch : Channels), ch.ballsConn = true → ch.msgsConn = true →
      chanAfter ch fs =
        { ch with ballsSent := ch.ballsSent ++ fs,
                  msgsSent := ch.msgsSent ++ List.replicate fs.length "balls" } := by
  intro fs
  induction fs with
  | nil => intro ch _ _; simp [chanAfter]
  | cons f rest ih =>
      intro ch hb hm
      show chanAfter ((ch.sendBalls f).sendMsg "balls") rest = _
      rw [show ch.sendBalls f = { ch with ballsSent := ch.ballsSent ++ [f] } by
            simp [Channels.sendBalls, hb],
          show ({ ch with ballsSent := ch.ballsSent ++ [f] } : Channels).sendMsg "balls"
            = { ch with ballsSent := ch.ballsSent ++ [f],
                        msgsSent := ch.msgsSent ++ ["balls"] } by
            simp [Channels.sendMsg, hm],
          ih _ (by exact hb) (by exact hm)]
      simp [List.replicate_succ, List.append_assoc]

theorem physicsSetup_two : physicsSetup 2 = some (setupWorld 2, uidRange 4 2) :=
  physicsSetup_succ 1

theorem run_end_of_not_panicked (x : RunResult) (h : x.panicked = false) :
    (if x.panicked then x else { x with channels := x.channels.sendMsg "end" })
      = { x with channels := x.channels.sendMsg "end" } := by
  rw [h]
  rfl

theorem initWorld_eq : initWorld = setupWorld 2 := by
  rw [initWorld, physicsSetup_two]; rfl

theorem trackedUids_eq : trackedUids = uidRange 4 2 := by
  rw [trackedUids, physicsSetup_two]; rfl

theorem physicsRun_spec (advance : RigidBodyState → RigidBodyState) (ch : Channels) :
    physicsRun advance ch =
      { world := (World.step advance)^[300] (setupWorld 2),
        frames := framesFrom advance (uidRange 4 2) 300 (setupWorld 2),
        channels :=
          (chanAfter ch (framesFrom advance (uidRange 4 2) 300 (setupWorld 2))).sendMsg "end",
        panicked := false } := by
  have hyp : ∀ k : Nat,
      (syncBalls ((World.step advance)^[k + 1] (setupWorld 2)) (uidRange 4 2)).isSome = true := by
    intro k
    obtain ⟨l, hl, _⟩ := syncBalls_setup advance 2 (k + 1)
    rw [hl]; rfl
  simp only [physicsRun, physicsSetup_two, TICKS]
  rw [runTicks_spec advance (uidRange 4 2) 300 (setupWorld 2) ch hyp,
    run_end_of_not_panicked _ rfl]

theorem physicsFrames_eq (advance : RigidBodyState → RigidBodyState) :
    physicsFrames advance = framesFrom advance (uidRange 4 2) 300 (setupWorld 2) := by
  rw [physicsFrames, physicsRun_spec]

theorem physicsFrames_length (advance : RigidBodyState → RigidBodyState) :
    (physicsFrames advance).length = 300 := by
  rw [physicsFrames_eq, framesFrom_length]

theorem physicsFrames_get (advance : RigidBodyState → RigidBodyState)
    (t : Nat) (h : t < 300) :
    (physicsFrames advance).get? t = some (tickFrame advance t) := by
  rw [physicsFrames_eq, framesFrom_get advance (uidRange 4 2) 300 (setupWorld 2) t h,
    tickFrame, worldAfter, initWorld_eq, trackedUids_eq]

/-- The strings delivered on the message channel over a whole connected run:
300 `"balls"` tags followed by the single terminal `"end"`. -/
theorem physicsRun_msgsSent (advance : RigidBodyState → RigidBodyState) :
    (physicsRun advance Channels.connected).channels.msgsSent =
      List.replicate 300 "balls" ++ ["end"] := by
  rw [physicsRun_spec, chanAfter_connected _ Channels.connected rfl rfl]
  show Channels.msgsSent (Channels.sendMsg _ "end") = _
  rw [show ∀ c : Channels, c.msgsConn = true →
        (c.sendMsg "end").msgsSent = c.msgsSent ++ ["end"] from
      fun c hc => by simp [Channels.sendMsg, hc]]
  · show ([] ++ List.replicate _ "balls") ++ ["end"] = _
    rw [List.nil_append, framesFrom_length]
  · rfl

/-- The frames delivered on the balls channel over a whole connected run. -/
theorem physicsRun_ballsSent (advance : RigidBodyState → RigidBodyState) :
    (physicsRun advance Channels.connected).channels.ballsSent = physicsFrames advance := by
  rw [physicsRun_spec, chanAfter_connected _ Channels.connected rfl rfl]
  show Channels.ballsSent (Channels.sendMsg _ "end") = _
  have hb : ∀ (c : Channels) (m : String), (c.sendMsg m).ballsSent = c.ballsSent := by
    intro c m
    simp only [Channels.sendMsg]
    split <;> rfl
  rw [hb, physicsFrames_eq]
  exact List.nil_append _

/-! ## The cross-thread channel system

The worker's sends, in chronological order (per tick: the frame on the balls
channel, then the `"balls"` tag on the message channel; after the loop, the
terminal `"end"`), interleave with the consumer loop of `main`.  Both mpsc
channels are FIFO queues; the consumer blocks in `recv()` on the message
channel and reads the balls channel with `try_recv().unwrap()` (panicking if
that queue is momentarily empty), panics on an unknown message string, and
breaks out of its loop on `"end"`. -/

/-- One send performed by the worker, on either channel. -/
inductive Ev where
  | sendBalls (f : Frame)
  | sendMsg (m : String)
  deriving DecidableEq

/-- The two sends of one loop iteration: `txBalls.send(frame)` then
`txMessages.send("balls")`. -/
def tickEvs (f : Frame) : List Ev := [.sendBalls f, .sendMsg "balls"]

/-- The worker's complete chronological send sequence for frame list `F`:
two sends per tick, then the terminal `"end"` send. -/
def script (F : List Frame) : List Ev := F.flatMap tickEvs ++ [.sendMsg "end"]

/-- Projection of a send sequence onto the balls channel. -/
def framesOf : List Ev → List Frame
  | [] => []
  | .sendBalls f :: r => f :: framesOf r
  | .sendMsg _ :: r => framesOf r

/-- Projection of a send sequence onto the message channel. -/
def msgsOf : List Ev → List String
  | [] => []
  | .sendBalls _ :: r => msgsOf r
  | .sendMsg m :: r => m :: msgsOf r

theorem framesOf_append (l₁ l₂ : List Ev) :
    framesOf (l₁ ++ l₂) = framesOf l₁ ++ framesOf l₂ := by
  induction l₁ with
  | nil => rfl
  | cons e r ih => cases e <;> simp [framesOf, ih]

theorem msgsOf_append (l₁ l₂ : List Ev) :
    msgsOf (l₁ ++ l₂) = msgsOf l₁ ++ msgsOf l₂ := by
  induction l₁ with
  | nil => rfl
  | cons e r ih => cases e <;> simp [msgsOf, ih]

/-- Joint state of the worker's remaining sends, the two channel queues, and
the consumer loop of `main`.  `consumed` lists the frames `main` has received
(and printed), in order; `done` is set when `main` breaks on `"end"`;
`panicked` is set when `try_recv().unwrap()` fails or an unknown message
arrives. -/
structure Sys where
  prod : List Ev
  ballsQ : List Frame
  msgQ : List String
  consumed : List Frame
  done : Bool
  panicked : Bool
  deriving DecidableEq

/-- Worker transitions: perform the next send, enqueueing on the matching
FIFO queue. -/
def workerMoves (s : Sys) : List Sys :=
  match s.prod with
  | [] => []
  | .sendBalls f :: r => [{ s with prod := r, ballsQ := s.ballsQ ++ [f] }]
  | .sendMsg m :: r => [{ s with prod := r, msgQ := s.msgQ ++ [m] }]

/-- Consumer transitions, mirroring the `match message.as_str()` in `main`:
on `"balls"`, `rxBalls.try_recv().unwrap()` (panic if the balls queue is
empty); on `"end"`, break; otherwise `panic!`.  A finished or panicked
consumer makes no further moves.  An empty message queue means `recv()`
blocks (no move). -/
def consumerMoves (s : Sys) : List Sys :=
  if s.done || s.panicked then []
  else
    match s.msgQ with
    | [] => []
    | m :: r =>
        if m = "balls" then
          match s.ballsQ with
          | [] => [{ s with msgQ := r, panicked := true }]
          | f :: bq => [{ s with msgQ := r, ballsQ := bq, consumed := s.consumed ++ [f] }]
        else if m = "end" then [{ s with msgQ := r, done := true }]
        else [{ s with msgQ := r, panicked := true }]

/-- All interleavings: at each step either the worker or the consumer moves. -/
def nexts (s : Sys) : List Sys := workerMoves s ++ consumerMoves s

/-- Initial state: worker about to run its full script, queues empty,
consumer at the top of its loop. -/
def init (F : List Frame) : Sys :=
  { prod := script F, ballsQ := [], msgQ := [], consumed := [],
    done := false, panicked := false }

/-- States reachable from `init F` under any interleaving. -/
inductive Reach (F : List Frame) : Sys → Prop where
  | refl : Reach F (init F)
  | tail {s t : Sys} : Reach F s → t ∈ nexts s → Reach F t

theorem script_cons (f : Frame) (F : List Frame) :
    script (f :: F) = .sendBalls f :: .sendMsg "balls" :: script F := by
  simp [script, tickEvs]

/-- Every prefix of the worker's script, as seen by its two projections:
either the prefix stops before the terminal send — it then holds the first
`a` frames and `b ≤ a ≤ b + 1` `"balls"` tags — or it is the whole script. -/
theorem script_take (F : List Frame) : ∀ p : Nat,
    (∃ a b : Nat, b ≤ a ∧ a ≤ F.length ∧ a ≤ b + 1 ∧
      framesOf ((script F).take p) = F.take a ∧
      msgsOf ((script F).take p) = List.replicate b "balls" ∧
      (script F).drop p ≠ []) ∨
    (framesOf ((script F).take p) = F ∧
      msgsOf ((script F).take p) = List.replicate F.length "balls" ++ ["end"] ∧
      (script F).drop p = []) := by
  induction F with
  | nil =>
      intro p
      match p with
      | 0 =>
          left
          exact ⟨0, 0, le_refl 0, by simp, by omega, rfl, rfl, by simp [script]⟩
      | Nat.succ q =>
          right
          have h1 : script ([] : List Frame) = [Ev.sendMsg "end"] := by simp [script]
          rw [h1]
          refine ⟨?_, ?_, ?_⟩
          · show framesOf (Ev.sendMsg "end" :: List.take q []) = []
            rw [List.take_nil]
            rfl
          · show msgsOf (Ev.sendMsg "end" :: List.take q []) = _
            rw [List.take_nil]
            rfl
          · show List.drop q ([] : List Ev) = []
            simp
  | cons f F' ih =>
      intro p
      match p with
      | 0 =>
          left
          refine ⟨0, 0, le_refl 0, by simp, by omega, rfl, rfl, ?_⟩
          rw [script_cons]
          simp
      | 1 =>
          left
          refine ⟨1, 0, by omega, by simp, by omega, ?_, ?_, ?_⟩
          · rw [script_cons]
            rfl
          · rw [script_cons]
            rfl
          · rw [script_cons]; simp
      | Nat.succ (Nat.succ q) =>
          rcases ih q with ⟨a', b', hba, haF, hab, hfr, hmsg, hdrop⟩ | ⟨hfr, hmsg, hdrop⟩
          · left
            refine ⟨a' + 1, b' + 1, by omega, ?_, by omega, ?_, ?_, ?_⟩
            · simp only [List.length_cons]; omega
            · rw [script_cons]
              show f :: framesOf ((script F').take q) = _
              rw [hfr]
              rfl
            · rw [script_cons]
              show msgsOf (Ev.sendMsg "balls" :: (script F').take q) = _
              show "balls" :: msgsOf ((script F').take q) = _
              rw [hmsg, List.replicate_succ]
            · rw [script_cons]
              show (script F').drop q ≠ []
              exact hdrop
          · right
            refine ⟨?_, ?_, ?_⟩
            · rw [script_cons]
              show f :: framesOf ((script F').take q) = _
              rw [hfr]
            · rw [script_cons]
              show "balls" :: msgsOf ((script F').take q) = _
              rw [hmsg, List.length_cons, List.replicate_succ, List.cons_append]
            · rw [script_cons]
              show (script F').drop q = []
              exact hdrop

theorem drop_cons_take {α : Type} :
    ∀ (l : List α) (p : Nat) (e : α) (r : List α),
      l.drop p = e :: r → l.take (p + 1) = l.take p ++ [e] ∧ l.drop (p + 1) = r := by
  intro l
  induction l with
  | nil => intro p e r h; rw [List.drop_nil] at h; exact absurd h (by simp)
  | cons x xs ih =>
      intro p e r h
      match p with
      | 0 =>
          rw [List.drop_zero] at h
          obtain ⟨rfl, rfl⟩ : x = e ∧ xs = r := by
            have := List.cons.injEq x xs e r ▸ h
            exact ⟨by injection h, by injection h⟩
          exact ⟨rfl, rfl⟩
      | Nat.succ q =>
          obtain ⟨h1, h2⟩ := ih q e r h
          constructor
          · show x :: xs.take (q + 1) = x :: xs.take q ++ [e]
            rw [h1]
            rfl
          · exact h2

/-- The message-channel history implied by a consumer state: the `"balls"`
tags already handled, the `"end"` if already handled, then the queued rest. -/
def MsgLedger (s : Sys) : List String :=
  List.replicate s.consumed.length "balls" ++
    (if s.done then ["end"] else []) ++ s.msgQ

/-- The inductive invariant of the channel system: the worker is at some
position `p` of its script, the frames received plus the frames queued are
exactly the frames sent, and the message-channel history is exactly the
messages sent.  In particular the consumer has not panicked. -/
def Inv (F : List Frame) (s : Sys) : Prop :=
  ∃ p : Nat,
    s.prod = (script F).drop p ∧
    s.panicked = false ∧
    s.consumed ++ s.ballsQ = framesOf ((script F).take p) ∧
    MsgLedger s = msgsOf ((script F).take p)

theorem inv_init (F : List Frame) : Inv F (init F) := by
  refine ⟨0, ?_, rfl, rfl, rfl⟩
  rw [List.drop_zero]
  rfl

theorem inv_step (F : List Frame) (s t : Sys) (hin : Inv F s) (ht : t ∈ nexts s) :
    Inv F t := by
  obtain ⟨p, hprod, hpan, hfr, hmsg⟩ := hin
  rw [nexts, List.mem_append] at ht
  rcases ht with hw | hc
  · -- worker move: the next send of the script is performed
    rcases hp : s.prod with _ | ⟨e, r⟩
    · simp [workerMoves, hp] at hw
    · cases e with
      | sendBalls f =>
          simp only [workerMoves, hp, List.mem_singleton] at hw
          subst hw
          have hdr : (script F).drop p = Ev.sendBalls f :: r := by rw [← hprod, hp]
          obtain ⟨htake, hdrop⟩ := drop_cons_take _ p _ _ hdr
          refine ⟨p + 1, ?_, hpan, ?_, ?_⟩
          · show r = _
            rw [hdrop]
          · show s.consumed ++ (s.ballsQ ++ [f]) = _
            rw [htake, framesOf_append, ← List.append_assoc, hfr]
            rfl
          · show MsgLedger s = _
            rw [htake, msgsOf_append, hmsg]
            simp [msgsOf]
      | sendMsg m =>
          simp only [workerMoves, hp, List.mem_singleton] at hw
          subst hw
          have hdr : (script F).drop p = Ev.sendMsg m :: r := by rw [← hprod, hp]
          obtain ⟨htake, hdrop⟩ := drop_cons_take _ p _ _ hdr
          refine ⟨p + 1, ?_, hpan, ?_, ?_⟩
          · show r = _
            rw [hdrop]
          · show s.consumed ++ s.ballsQ = _
            rw [htake, framesOf_append, hfr]
            simp [framesOf]
          · show List.replicate s.consumed.length "balls" ++
              (if s.done then ["end"] else []) ++ (s.msgQ ++ [m]) = _
            rw [htake, msgsOf_append, ← hmsg]
            show _ = MsgLedger s ++ msgsOf [Ev.sendMsg m]
            rw [show msgsOf [Ev.sendMsg m] = [m] from rfl, MsgLedger]
            simp [List.append_assoc]
  · -- consumer move
    cases hdone : s.done with
    | true => simp [consumerMoves, hdone] at hc
    | false =>
        rcases hq : s.msgQ with _ | ⟨m, r⟩
        · simp [consumerMoves, hdone, hpan, hq] at hc
        · by_cases hm : m = "balls"
          · subst hm
            rcases hb : s.ballsQ with _ | ⟨f, bq⟩
            · -- `try_recv().unwrap()` with an empty balls queue: ruled out
              exfalso
              rw [hb, List.append_nil] at hfr
              simp [MsgLedger, hdone, hq] at hmsg
              rcases script_take F p with
                ⟨a, b, hba, haF, hab, hfrL, hmsgL, _⟩ | ⟨hfrR, hmsgR, _⟩
              · have l1 : s.consumed.length = a := by
                  have := congrArg List.length (hfr.trans hfrL)
                  simpa [List.length_take, Nat.min_eq_left haF] using this
                have l2 : s.consumed.length + (r.length + 1) = b := by
                  have := congrArg List.length (hmsg.trans hmsgL)
                  simp [List.length_append, List.length_replicate] at this
                  omega
                omega
              · have l1 : s.consumed.length = F.length := by
                  have := congrArg List.length (hfr.trans hfrR)
                  simpa using this
                rw [hmsgR, l1] at hmsg
                have h2 : ("balls" : String) :: r = ["end"] := by
                  have hassoc : List.replicate F.length "balls" ++ ("balls" :: r)
                      = List.replicate F.length "balls" ++ ["end"] := by
                    rw [← hmsg]
                  exact List.append_cancel_left hassoc
                have h3 : ("balls" : String) = "end" := by injection h2
                exact absurd h3 (by decide)
            · -- a frame is available: the consumer receives it
              simp [consumerMoves, hdone, hpan, hq, hb] at hc
              subst hc
              refine ⟨p, hprod, rfl, ?_, ?_⟩
              · show (s.consumed ++ [f]) ++ bq = _
                rw [List.append_assoc, List.singleton_append, ← hb]
                exact hfr
              · rw [← hmsg]
                simp [MsgLedger, hdone, hq, List.length_append,
                  List.replicate_succ', List.append_assoc]
          · by_cases hm2 : m = "end"
            · subst hm2
              simp [consumerMoves, hdone, hpan, hq, hm] at hc
              subst hc
              refine ⟨p, hprod, rfl, ?_, ?_⟩
              · show s.consumed ++ s.ballsQ = _
                exact hfr
              · rw [← hmsg]
                simp [MsgLedger, hdone, hq]
            · -- an unknown message string: ruled out
              exfalso
              have hmem : m ∈ MsgLedger s := by
                simp [MsgLedger, hq]
              rw [hmsg] at hmem
              rcases script_take F p with
                ⟨a, b, _, _, _, _, hmsgL, _⟩ | ⟨_, hmsgR, _⟩
              · rw [hmsgL] at hmem
                exact hm (List.eq_of_mem_replicate hmem)
              · rw [hmsgR] at hmem
                rcases List.mem_append.1 hmem with h1 | h1
                · exact hm (List.eq_of_mem_replicate h1)
                · exact hm2 (by simpa using h1)

theorem reach_inv (F : List Frame) (s : Sys) (h : Reach F s) : Inv F s := by
  induction h with
  | refl => exact inv_init F
  | tail _ hmem ih => exact inv_step F _ _ ih hmem

/-- The frames the consumer has received are exactly the first
`consumed.length` frames of the worker, in order. -/
theorem inv_consumed_take (F : List Frame) (s : Sys) (h : Inv F s) :
    s.consumed = F.take s.consumed.length := by
  obtain ⟨p, _, _, hfr, _⟩ := h
  have key : ∃ a, a ≤ F.length ∧ framesOf ((script F).take p) = F.take a := by
    rcases script_take F p with ⟨a, b, _, haF, _, hfrL, _, _⟩ | ⟨hfrR, _, _⟩
    · exact ⟨a, haF, hfrL⟩
    · exact ⟨F.length, le_refl _, by rw [hfrR, List.take_length]⟩
  obtain ⟨a, haF, hfrA⟩ := key
  have hlen : s.consumed.length ≤ a := by
    have := congrArg List.length (hfr.trans hfrA)
    simp only [List.length_append, List.length_take] at this
    omega
  have hgoal : s.consumed = (F.take a).take s.consumed.length := by
    rw [← hfrA, ← hfr]
    exact (List.take_left s.consumed s.ballsQ).symm
  rw [List.take_take, Nat.min_eq_left hlen] at hgoal
  exact hgoal

/-- A reachable state with no enabled transition is a clean shutdown: the
consumer has broken on `"end"` after receiving every frame. -/
theorem inv_stuck (F : List Frame) (s : Sys) (h : Inv F s) (hstuck : nexts s = []) :
    s.done = true ∧ s.consumed = F := by
  obtain ⟨p, hprod, hpan, hfr, hmsg⟩ := h
  have hsplit := List.append_eq_nil.1 hstuck
  have hprodnil : s.prod = [] := by
    rcases hp : s.prod with _ | ⟨e, r⟩
    · rfl
    · exfalso
      have := hsplit.1
      cases e <;> simp [workerMoves, hp] at this
  have hdropnil : (script F).drop p = [] := by rw [← hprod, hprodnil]
  rcases script_take F p with ⟨_, _, _, _, _, _, _, hne⟩ | ⟨hfrR, hmsgR, _⟩
  · exact absurd hdropnil hne
  · have hclen : s.consumed.length + s.ballsQ.length = F.length := by
      have := congrArg List.length (hfr.trans hfrR)
      simpa [List.length_append] using this
    cases hdone : s.done with
    | false =>
        exfalso
        have hqnil : s.msgQ = [] := by
          rcases hq : s.msgQ with _ | ⟨m, r⟩
          · rfl
          · exfalso
            have := hsplit.2
            by_cases h1 : m = "balls"
            · subst h1
              rcases hb : s.ballsQ with _ | ⟨f, bq⟩ <;>
                simp [consumerMoves, hdone, hpan, hq, hb] at this
            · by_cases h2 : m = "end" <;>
                simp [consumerMoves, hdone, hpan, hq, h1, h2] at this
        rw [hmsgR] at hmsg
        have := congrArg List.length hmsg
        simp [MsgLedger, hdone, hqnil] at this
        omega
    | true =>
        refine ⟨rfl, ?_⟩
        have hmsg2 : List.replicate s.consumed.length "balls" ++ ("end" :: s.msgQ) =
            List.replicate F.length "balls" ++ ["end"] := by
          calc List.replicate s.consumed.length "balls" ++ ("end" :: s.msgQ)
              = MsgLedger s := by simp [MsgLedger, hdone, List.append_assoc]
            _ = msgsOf ((script F).take p) := hmsg
            _ = List.replicate F.length "balls" ++ ["end"] := hmsgR
        have hclen2 : s.consumed.length = F.length := by
          by_contra hne2
          have hlt : s.consumed.length < F.length := by omega
          have hL : (List.replicate s.consumed.length "balls" ++
              ("end" :: s.msgQ)).get? s.consumed.length = some "end" := by
            rw [List.get?_append_right (by simp [List.length_replicate])]
            simp
          have hR : (List.replicate F.length "balls" ++ ["end"]).get? s.consumed.length
              = some "balls" := by
            rw [List.get?_append (by simpa using hlt)]
            rw [List.get?_eq_get (by simpa using hlt)]
            simp
          rw [hmsg2] at hL
          rw [hL] at hR
          have hcontra : ("end" : String) = "balls" := by injection hR
          exact absurd hcontra (by decide)
        have hbq : s.ballsQ = [] := by
          have hlen0 : s.ballsQ.length = 0 := by omega
          exact List.length_eq_zero.1 hlen0
        rw [hbq, List.append_nil] at hfr
        rw [hfr, hfrR]

/-- Termination measure: every transition strictly decreases it, so every
execution of the system is finite. -/
def sysMeasure (s : Sys) : Nat := 2 * s.prod.length + s.msgQ.length

theorem nexts_sysMeasure (s t : Sys) (h : t ∈ nexts s) :
    sysMeasure t < sysMeasure s := by
  rw [nexts, List.mem_append] at h
  rcases h with hw | hc
  · rcases hp : s.prod with _ | ⟨e, r⟩
    · simp [workerMoves, hp] at hw
    · cases e with
      | sendBalls f =>
          simp [workerMoves, hp] at hw
          subst hw
          simp [sysMeasure, hp] <;> omega
      | sendMsg m =>
          simp [workerMoves, hp] at hw
          subst hw
          simp [sysMeasure, hp] <;> omega
  · cases hdone : s.done with
    | true => simp [consumerMoves, hdone] at hc
    | false =>
        cases hpan : s.panicked with
        | true => simp [consumerMoves, hdone, hpan] at hc
        | false =>
            rcases hq : s.msgQ with _ | ⟨m, r⟩
            · simp [consumerMoves, hdone, hpan, hq] at hc
            · by_cases h1 : m = "balls"
              · subst h1
                rcases hb : s.ballsQ with _ | ⟨f, bq⟩ <;>
                  · simp [consumerMoves, hdone, hpan, hq, hb] at hc
                    subst hc
                    simp [sysMeasure, hq] <;> omega
              · by_cases h2 : m = "end" <;>
                  · simp [consumerMoves, hdone, hpan, hq, h1, h2] at hc
                    subst hc
                    simp [sysMeasure, hq] <;> omega

theorem framesOf_script (F : List Frame) : framesOf (script F) = F := by
  induction F with
  | nil => rfl
  | cons f F' ih =>
      rw [script_cons]
      show f :: framesOf (script F') = f :: F'
      rw [ih]

theorem msgsOf_script (F : List Frame) :
    msgsOf (script F) = List.replicate F.length "balls" ++ ["end"] := by
  induction F with
  | nil => rfl
  | cons f F' ih =>
      rw [script_cons]
      show "balls" :: msgsOf (script F') = _
      rw [ih, List.length_cons, List.replicate_succ, List.cons_append]

/-- The script segment of tick `t`: the frame send immediately followed by
its `"balls"` tag. -/
theorem script_tick_segment :
    ∀ (F : List Frame) (t : Nat) (f : Frame), F.get? t = some f →
      ((script F).drop (2 * t)).take 2 = [Ev.sendBalls f, Ev.sendMsg "balls"] := by
  intro F
  induction F with
  | nil => intro t f h; simp at h
  | cons g F' ih =>
      intro t f h
      match t with
      | 0 =>
          rw [List.get?_cons_zero] at h
          injection h with h
          subst h
          rw [script_cons]
          rfl
      | Nat.succ t' =>
          rw [List.get?_cons_succ] at h
          rw [script_cons, show 2 * (t' + 1) = (2 * t') + 1 + 1 by omega]
          show ((script F').drop (2 * t')).take 2 = _
          exact ih t' f h

/-! ## The collision classifier

The active code never reads the engine's contact events: the classification
logic exists in the repository only as the commented-out callback at the end
of `main.rs` (a ball-vs-ball membership check against the `balls` uid set),
while the spec (§4.4) describes a full classifier.  The classifier is
therefore modelled from the spec and verified against the spec's own category
policy. -/

/-- Entity role, spec §3: `Ground` for static scenery, `Ball` for tracked
dynamic bodies. -/
inductive EntityRole where
  | Ground
  | Ball
  deriving DecidableEq, Fintype

/-- Raw contact event kind reported by the engine (`ContactEvent::Started` /
`Stopped`). -/
inductive ContactKind where
  | Started
  | Stopped
  deriving DecidableEq, Fintype

/-- Classified category, spec §3. -/
inductive Category where
  | BallVsBall
  | BallVsGround
  | Other
  deriving DecidableEq

/-- Modelled from the spec: the category policy of the Collision Classifier
(§4.4), absent from the active code.  `BallVsBall` iff both roles are `Ball`;
`BallVsGround` iff exactly one role is `Ground` and the other `Ball`; `Other`
for every other combination, including unregistered ids. -/
def classifyRoles : Option EntityRole → Option EntityRole → Category
  | some .Ball, some .Ball => .BallVsBall
  | some .Ground, some .Ball => .BallVsGround
  | some .Ball, some .Ground => .BallVsGround
  | _, _ => .Other

/-- Modelled from the spec: classification of a raw pair `(a, b)` against a
registry `role_of` (§4.2, §4.4) — a pure function of the two looked-up
roles. -/
def classify (role_of : Nat → Option EntityRole) (a b : Nat) : Category :=
  classifyRoles (role_of a) (role_of b)

/-- Modelled from the spec: `is_tracked_ball` (§4.2), membership in
`TrackedSet` — the ids whose role is `Ball`. -/
def is_tracked_ball (role_of : Nat → Option EntityRole) (x : Nat) : Bool :=
  decide (role_of x = some .Ball)

/-- A classified contact event (spec §3 `ContactEvent`): the engine-reported
kind and pair, plus the computed category. -/
structure ClassifiedEvent where
  kind : ContactKind
  a : Nat
  b : Nat
  category : Category
  deriving DecidableEq

/-- Modelled from the spec: the classifier preserves the reported kind and
pair and computes only the category (§4.4). -/
def classifyEvent (role_of : Nat → Option EntityRole) (kind : ContactKind)
    (a b : Nat) : ClassifiedEvent :=
  { kind := kind, a := a, b := b, category := classify role_of a b }

theorem classifyRoles_cases : ∀ x y : Option EntityRole,
    (classifyRoles x y = .BallVsBall ↔ x = some .Ball ∧ y = some .Ball) ∧
    (classifyRoles x y = .BallVsGround ↔
      (x = some .Ground ∧ y = some .Ball) ∨ (x = some .Ball ∧ y = some .Ground)) ∧
    (classifyRoles x y = .Other ↔
      ¬ ((x = some .Ball ∧ y = some .Ball) ∨
         (x = some .Ground ∧ y = some .Ball) ∨
         (x = some .Ball ∧ y = some .Ground))) := by
  decide

/-- C1: for every raw pair `(a, b)` and every registry, the category is
`BallVsBall` iff both ids are tracked balls, `BallVsGround` iff exactly one
id has role `Ground` and the other `Ball`, and `Other` otherwise; the
category is a function of `(role_of a, role_of b)` only — two registries
agreeing on `a` and `b` classify identically — and is independent of the
event kind. -/
theorem c1_classifier (role_of role_of2 : Nat → Option EntityRole)
    (kind kind2 : ContactKind) (a b : Nat)
    (hA : role_of2 a = role_of a) (hB : role_of2 b = role_of b) :
    ((classifyEvent role_of kind a b).category = Category.BallVsBall ↔
      (is_tracked_ball role_of a = true ∧ is_tracked_ball role_of b = true)) ∧
    ((classifyEvent role_of kind a b).category = Category.BallVsGround ↔
      ((role_of a = some EntityRole.Ground ∧ role_of b = some EntityRole.Ball) ∨
       (role_of a = some EntityRole.Ball ∧ role_of b = some EntityRole.Ground))) ∧
    ((classifyEvent role_of kind a b).category = Category.Other ↔
      ¬ ((is_tracked_ball role_of a = true ∧ is_tracked_ball role_of b = true) ∨
         (role_of a = some EntityRole.Ground ∧ role_of b = some EntityRole.Ball) ∨
         (role_of a = some EntityRole.Ball ∧ role_of b = some EntityRole.Ground))) ∧
    (classifyEvent role_of2 kind2 a b).category =
      (classifyEvent role_of kind a b).category := by
  obtain ⟨h1, h2, h3⟩ := classifyRoles_cases (role_of a) (role_of b)
  refine ⟨?_, ?_, ?_, ?_⟩
  · show classifyRoles (role_of a) (role_of b) = _ ↔ _
    simpa [is_tracked_ball] using h1
  · exact h2
  · show classifyRoles (role_of a) (role_of b) = _ ↔ _
    simpa [is_tracked_ball] using h3
  · show classifyRoles (role_of2 a) (role_of2 b) = classifyRoles (role_of a) (role_of b)
    rw [hA, hB]

/-- The registry in which no id is registered. -/
def trivialRegistry : Nat → Option EntityRole := fun _ => none

theorem c1_classifier_witness :
    trivialRegistry 0 = trivialRegistry 0 ∧ trivialRegistry 1 = trivialRegistry 1 ∧
    (((classifyEvent trivialRegistry ContactKind.Started 0 1).category = Category.BallVsBall ↔
      (is_tracked_ball trivialRegistry 0 = true ∧ is_tracked_ball trivialRegistry 1 = true)) ∧
    ((classifyEvent trivialRegistry ContactKind.Started 0 1).category = Category.BallVsGround ↔
      ((trivialRegistry 0 = some EntityRole.Ground ∧ trivialRegistry 1 = some EntityRole.Ball) ∨
       (trivialRegistry 0 = some EntityRole.Ball ∧ trivialRegistry 1 = some EntityRole.Ground))) ∧
    ((classifyEvent trivialRegistry ContactKind.Started 0 1).category = Category.Other ↔
      ¬ ((is_tracked_ball trivialRegistry 0 = true ∧ is_tracked_ball trivialRegistry 1 = true) ∨
         (trivialRegistry 0 = some EntityRole.Ground ∧ trivialRegistry 1 = some EntityRole.Ball) ∨
         (trivialRegistry 0 = some EntityRole.Ball ∧ trivialRegistry 1 = some EntityRole.Ground))) ∧
    (classifyEvent trivialRegistry ContactKind.Stopped 0 1).category =
      (classifyEvent trivialRegistry ContactKind.Started 0 1).category) :=
  ⟨rfl, rfl,
    c1_classifier trivialRegistry trivialRegistry ContactKind.Started ContactKind.Stopped
      0 1 rfl rfl⟩

/-- C2: for every tick `t < 300`, the frame published at tick `t` lists
exactly the tracked ball bodies registered before the loop began — its id
sequence equals the tracked uid list `[4, 5]` — and that sequence is strictly
ascending.  Holds for every engine integrator `advance`. -/
theorem c2_frame_bodies (advance : RigidBodyState → RigidBodyState)
    (t : Nat) (h : t < 300) :
    (physicsFrames advance).get? t = some (tickFrame advance t) ∧
    (tickFrame advance t).map BallMsg.id = trackedUids ∧
    trackedUids = [4, 5] ∧
    List.Chain' (fun x y => x < y) ((tickFrame advance t).map BallMsg.id) := by
  obtain ⟨l, hl, hmap⟩ := syncBalls_setup advance 2 (t + 1)
  have hframe : tickFrame advance t = l := by
    rw [tickFrame, worldAfter, initWorld_eq, trackedUids_eq, hl]
    rfl
  have hids : (tickFrame advance t).map BallMsg.id = trackedUids := by
    rw [hframe, hmap, trackedUids_eq]
  refine ⟨physicsFrames_get advance t h, hids, by rw [trackedUids_eq]; rfl, ?_⟩
  rw [hids, trackedUids_eq, show uidRange 4 2 = [4, 5] from rfl]
  exact List.chain'_cons.2 ⟨by omega, List.chain'_singleton 5⟩

theorem c2_frame_bodies_witness :
    0 < 300 ∧
    ((physicsFrames (fun b => b)).get? 0 = some (tickFrame (fun b => b) 0) ∧
    (tickFrame (fun b => b) 0).map BallMsg.id = trackedUids ∧
    trackedUids = [4, 5] ∧
    List.Chain' (fun x y => x < y) ((tickFrame (fun b => b) 0).map BallMsg.id)) :=
  ⟨by decide, c2_frame_bodies (fun b => b) 0 (by decide)⟩

/-- C3: in every reachable state of the two-thread system, the frames the
consumer has received are exactly the first `consumed.length` frames the
worker sent, in order (no gap, no reordering), and the `i`-th frame sent is
the snapshot of the `i`-th simulation tick (the state after `i + 1` engine
steps); there are 300 such frames. -/
theorem c3_tick_order (advance : RigidBodyState → RigidBodyState)
    (s : Sys) (i : Nat)
    (h1 : Reach (physicsFrames advance) s) (h2 : i < 300) :
    s.consumed = (physicsFrames advance).take s.consumed.length ∧
    (physicsFrames advance).get? i = some (tickFrame advance i) ∧
    (physicsFrames advance).length = 300 :=
  ⟨inv_consumed_take _ _ (reach_inv _ _ h1), physicsFrames_get advance i h2,
    physicsFrames_length advance⟩

theorem c3_tick_order_witness :
    Reach (physicsFrames (fun b => b)) (init (physicsFrames (fun b => b))) ∧ 0 < 300 ∧
    ((init (physicsFrames (fun b => b))).consumed =
      (physicsFrames (fun b => b)).take
        (init (physicsFrames (fun b => b))).consumed.length ∧
    (physicsFrames (fun b => b)).get? 0 = some (tickFrame (fun b => b) 0) ∧
    (physicsFrames (fun b => b)).length = 300) :=
  ⟨Reach.refl, by decide,
    c3_tick_order (fun b => b) (init (physicsFrames (fun b => b))) 0 Reach.refl (by decide)⟩

/-- C4 counterexample: the claim says each tick's bodies and events are
published as ONE single frame message.  In the code, tick 0's publication is
two separate channel sends — the `Vec<Ball>` on the balls channel followed by
the `"balls"` tag on the message channel — and no collision events are
published at all (`Frame` is `List BallMsg`; there is no event payload in any
message).  So the per-tick emission has length 2, not 1. -/
theorem c4_counterexample :
    ((script (physicsFrames (fun b => b))).take 2).length ≠ 1 ∧
    (script (physicsFrames (fun b => b))).take 2 =
      [Ev.sendBalls (tickFrame (fun b => b) 0), Ev.sendMsg "balls"] := by
  have hseg := script_tick_segment (physicsFrames (fun b => b)) 0
      (tickFrame (fun b => b) 0) (physicsFrames_get _ 0 (by decide))
  rw [show 2 * 0 = 0 from rfl, List.drop_zero] at hseg
  exact ⟨by rw [hseg]; decide, hseg⟩

/-- C4 (amended): each tick's body snapshot is sent as one message on the
balls channel, immediately followed by one `"balls"` control message on the
message channel; collision events are not part of any published message. -/
theorem c4_amended (advance : RigidBodyState → RigidBodyState)
    (t : Nat) (h : t < 300) :
    ((script (physicsFrames advance)).drop (2 * t)).take 2 =
      [Ev.sendBalls (tickFrame advance t), Ev.sendMsg "balls"] :=
  script_tick_segment _ t _ (physicsFrames_get advance t h)

theorem c4_amended_witness :
    0 < 300 ∧
    ((script (physicsFrames (fun b => b))).drop (2 * 0)).take 2 =
      [Ev.sendBalls (tickFrame (fun b => b) 0), Ev.sendMsg "balls"] :=
  ⟨by decide, c4_amended (fun b => b) 0 (by decide)⟩

/-- C5 counterexample: the claim says the terminal message distinguishes
`Finished` from `Failed(reason)`.  The worker's message vocabulary is exactly
`{"balls", "end"}`: there is no message that could encode a failure, let
alone carry a reason, so the protocol cannot express `Failed` — a worker
panic would be observable only as channel closure. -/
theorem c5_counterexample :
    ¬ ∃ m, m ∈ msgsOf (script (physicsFrames (fun b => b))) ∧
      m ≠ "balls" ∧ m ≠ "end" := by
  rintro ⟨m, hm, hb1, hb2⟩
  rw [msgsOf_script] at hm
  rcases List.mem_append.1 hm with h | h
  · exact hb1 (List.eq_of_mem_replicate h)
  · exact hb2 (by simpa using h)

/-- C5 (amended): in every run the worker emits exactly one terminal message,
the constant string `"end"`, after the 300 `"balls"` frame tags; it signals
completion only — the protocol has no `Failed` variant. -/
theorem c5_amended (advance : RigidBodyState → RigidBodyState) :
    msgsOf (script (physicsFrames advance)) =
      List.replicate 300 "balls" ++ ["end"] ∧
    (physicsRun advance Channels.connected).channels.msgsSent =
      List.replicate 300 "balls" ++ ["end"] := by
  constructor
  · rw [msgsOf_script, physicsFrames_length]
  · exact physicsRun_msgsSent advance

/-- C6: for every integrator and every channel state, the worker performs
exactly `TICKS = 300` engine steps, never panics, and (on a connected run)
its last delivered message is the terminal `"end"`. -/
theorem c6_tick_budget (advance : RigidBodyState → RigidBodyState) (ch : Channels) :
    (physicsRun advance ch).world.ticks = TICKS ∧ TICKS = 300 ∧
    (physicsRun advance ch).panicked = false ∧
    ((physicsRun advance Channels.connected).channels.msgsSent).getLast? = some "end" := by
  refine ⟨?_, rfl, ?_, ?_⟩
  · rw [physicsRun_spec]
    show ((World.step advance)^[300] (setupWorld 2)).ticks = TICKS
    rw [ticks_iterate]
    rfl
  · rw [physicsRun_spec]
  · rw [physicsRun_msgsSent]
    exact List.getLast?_concat _

/-- C7: the simulation is entirely independent of whether the consumer's
channel ends are still connected: the engine world (including its step
count), the frames built, and the non-panicking completion of the loop are
identical across all channel states; only delivery differs.  Send results are
discarded by the worker, so a disconnected consumer never stops the loop. -/
theorem c7_send_failure (advance : RigidBodyState → RigidBodyState)
    (ch₁ ch₂ : Channels) :
    (physicsRun advance ch₁).world = (physicsRun advance ch₂).world ∧
    (physicsRun advance ch₁).frames = (physicsRun advance ch₂).frames ∧
    (physicsRun advance ch₁).panicked = false ∧
    (physicsRun advance ch₁).world.ticks = 300 := by
  rw [physicsRun_spec advance ch₁, physicsRun_spec advance ch₂]
  refine ⟨rfl, rfl, rfl, ?_⟩
  show ((World.step advance)^[300] (setupWorld 2)).ticks = 300
  rw [ticks_iterate]
  rfl

/-! ## Scene-construction failure conditions (C8) -/

theorem uidRange_length : ∀ (k b : Nat), (uidRange b k).length = k := by
  intro k
  induction k with
  | zero => intro b; rfl
  | succ k ih =>
      intro b
      show (uidRange (b + 1) k).length + 1 = k + 1
      rw [ih]

/-- A degenerate shape request: a non-positive half-extent. -/
def degenerateCuboid (c : Cuboid) : Bool :=
  decide (c.hx ≤ 0) || decide (c.hy ≤ 0)

/-- All shape requests made during scene construction (4 ground cuboids, then
one cuboid per ball). -/
def requestedShapes (num : Nat) : List Cuboid :=
  (create_balls (create_ground World.new) num).1.shapes

/-- The collider handles the engine reports for the requested balls. -/
def createdBallHandles (num : Nat) : List Nat :=
  (create_balls (create_ground World.new) num).2

theorem degenerateCuboid_groundShape : degenerateCuboid groundShape = false := by
  have h1 : ¬ (groundShape.hx ≤ (0 : Rat)) := by norm_num [groundShape, COLLIDER_MARGIN]
  have h2 : ¬ (groundShape.hy ≤ (0 : Rat)) := by norm_num [groundShape, COLLIDER_MARGIN]
  simp [degenerateCuboid, h1, h2]

theorem degenerateCuboid_ballShape : degenerateCuboid ballShape = false := by
  have h1 : ¬ (ballShape.hx ≤ (0 : Rat)) := by norm_num [ballShape, COLLIDER_MARGIN]
  have h2 : ¬ (ballShape.hy ≤ (0 : Rat)) := by norm_num [ballShape, COLLIDER_MARGIN]
  simp [degenerateCuboid, h1, h2]

/-- The failure condition of spec §4.1: the engine reported zero created
bodies although at least one was requested, or some requested shape is
degenerate. -/
def sceneFailureCondition (num : Nat) : Prop :=
  (1 ≤ num ∧ (createdBallHandles num).length = 0) ∨
  ∃ c ∈ requestedShapes num, degenerateCuboid c = true

/-- Whether scene construction aborts.  `create_ground` and `create_balls`
in the source contain no failure path whatsoever — they return
unconditionally — so construction never aborts. -/
def sceneConstructionAborts (num : Nat) : Prop := False

/-- C8: scene construction fails whenever the engine reports zero created
bodies where one was requested or a requested shape is degenerate.  This
holds vacuously: the second conjunct shows the failure condition is
unsatisfiable — `create_balls num` always yields `num` handles, and every
requested half-extent is the positive constant `49.99` or `1.49` — while
`sceneConstructionAborts` is `False` by construction because the source has
no abort path at all. -/
theorem c8_scene_failure (num : Nat) :
    (sceneFailureCondition num → sceneConstructionAborts num) ∧
    ¬ sceneFailureCondition num := by
  have hnot : ¬ sceneFailureCondition num := by
    intro h
    rcases h with ⟨h1, h2⟩ | ⟨c, hc, hdeg⟩
    · rw [createdBallHandles, create_balls_ground, uidRange_length] at h2
      omega
    · rw [requestedShapes, create_balls_ground] at hc
      show False
      rcases List.mem_append.1 hc with hg | hb
      · have hcg := List.eq_of_mem_replicate hg
        subst hcg
        rw [degenerateCuboid_groundShape] at hdeg
        exact absurd hdeg (by decide)
      · have hcb := List.eq_of_mem_replicate hb
        subst hcb
        rw [degenerateCuboid_ballShape] at hdeg
        exact absurd hdeg (by decide)
  exact ⟨fun h => absurd h hnot, hnot⟩

/-! ## Worker unwraps (C9) -/

/-- The `unwrap()` chain of the snapshot loop for one collider handle:
`collider_body_handle` followed by `rigid_body_mut` must both succeed. -/
def unwrapChainOk (w : World) (h : Nat) : Bool :=
  ((w.collider_body_handle h).bind w.rigid_body).isSome

/-- All `unwrap()`s of the worker for a run with `num` balls, checked after
`k` engine steps: setup succeeded (so `last().unwrap()` and the
initial-velocity lookups succeeded — `physicsSetup` is `none` exactly when
one of them fails), the handle vector is non-empty, and every handle resolves
to a body and a rigid body in the stepped world. -/
def workerUnwrapsOk (num k : Nat) (advance : RigidBodyState → RigidBodyState) : Bool :=
  match physicsSetup num with
  | none => false
  | some (w, hs) =>
      hs.getLast?.isSome &&
        hs.all (fun h => unwrapChainOk ((World.step advance)^[k] w) h)

/-- C9: whenever `create_balls` is asked for at least one ball, every
`unwrap()` in the physics worker succeeds — at setup and at every tick `k` of
the snapshot loop, for any engine integrator. -/
theorem c9_unwraps (num k : Nat) (advance : RigidBodyState → RigidBodyState)
    (h : 1 ≤ num) : workerUnwrapsOk num k advance = true := by
  obtain ⟨m, rfl⟩ : ∃ m, num = m + 1 := ⟨num - 1, by omega⟩
  simp only [workerUnwrapsOk, physicsSetup_succ m]
  rw [Bool.and_eq_true]
  constructor
  · rw [uidRange_getLast m 4]
    rfl
  · rw [List.all_eq_true]
    intro x hmem
    obtain ⟨hlo, hhi⟩ := (mem_uidRange (m + 1) 4 x).1 hmem
    obtain ⟨i, rfl⟩ : ∃ i, x = 4 + i := ⟨x - 4, by omega⟩
    rw [unwrapChainOk,
      collider_body_handle_setup_iterate advance (m + 1) i k (by omega),
      Option.some_bind]
    exact rigid_body_setup_iterate_isSome advance (m + 1) i k (by omega)

theorem c9_unwraps_witness :
    1 ≤ 2 ∧ workerUnwrapsOk 2 1 (fun b => b) = true :=
  ⟨by decide, c9_unwraps 2 1 (fun b => b) (by decide)⟩

/-- C10: in every reachable state of the two-thread system (for any
integrator), the consumer has not panicked — the unknown-message branch and
the `try_recv().unwrap()` are unreachable; any state with no enabled
transition has the consumer cleanly finished having received all 300 frames;
every transition strictly decreases `sysMeasure`, so every execution is
finite; and the worker's message-channel sends are exactly 300 `"balls"`
(each frame tag sent right after its frame) followed by one `"end"`. -/
theorem c10_consumer_safety (advance : RigidBodyState → RigidBodyState)
    (s : Sys) (h : Reach (physicsFrames advance) s) :
    s.panicked = false ∧
    (nexts s = [] → s.done = true ∧ s.consumed = physicsFrames advance) ∧
    ((nexts s).all fun t => decide (sysMeasure t < sysMeasure s)) = true ∧
    msgsOf (script (physicsFrames advance)) = List.replicate 300 "balls" ++ ["end"] ∧
    (physicsFrames advance).length = 300 := by
  have hinv := reach_inv _ _ h
  refine ⟨?_, ?_, ?_, ?_, physicsFrames_length advance⟩
  · obtain ⟨_, _, hpan, _, _⟩ := hinv
    exact hpan
  · intro hstuck
    exact inv_stuck _ _ hinv hstuck
  · rw [List.all_eq_true]
    intro t ht
    exact decide_eq_true (nexts_sysMeasure s t ht)
  · rw [msgsOf_script, physicsFrames_length]

theorem c10_consumer_safety_witness :
    Reach (physicsFrames (fun b => b)) (init (physicsFrames (fun b => b))) ∧
    ((init (physicsFrames (fun b => b))).panicked = false ∧
    (nexts (init (physicsFrames (fun b => b))) = [] →
      (init (physicsFrames (fun b => b))).done = true ∧
      (init (physicsFrames (fun b => b))).consumed = physicsFrames (fun b => b)) ∧
    ((nexts (init (physicsFrames (fun b => b)))).all fun t =>
      decide (sysMeasure t < sysMeasure (init (physicsFrames (fun b => b))))) = true ∧
    msgsOf (script (physicsFrames (fun b => b))) =
      List.replicate 300 "balls" ++ ["end"] ∧
    (physicsFrames (fun b => b)).length = 300) :=
  ⟨Reach.refl, c10_consumer_safety (fun b => b) (init (physicsFrames (fun b => b))) Reach.refl⟩
